import Mathlib

/-!
Verification of the picbasket core pipeline (src/picbasket/picbasket.py)
against its natural-language specification.

The Python source is shallowly embedded below.  Conventions:

* An image record `[path, (w, h), ts]` (a Python list) becomes the
  structure `Img` with fields `path`, `resw`, `resh`, `ts`.
* The image database (`defaultdict(list)` mapping hash strings to record
  lists, insertion-ordered like every Python dict) becomes the
  insertion-ordered association list `Db`.
* `time.localtime` depends on the host timezone; it is embedded as
  `localtime tz ts` with the UTC offset `tz` (in seconds) passed
  explicitly.  Likewise `time.mktime` becomes `mktime tz ...`.
* Python functions that can raise an uncaught exception are embedded
  with `Option`/`Except` results where `none`/`.error` marks the raise
  (e.g. `candidate[0]` on an empty candidate, `time.strptime` on a
  malformed datetime string).
* File-system effects (the pickle store, the directory walk, the worker
  pools) are embedded as explicit state: the store is a map from path to
  token list, the walk is the list of files paired with the pool outcome
  for each, and a copy is an oracle saying whether the copy succeeded.
-/

namespace Picbasket

/-- One image record: the Python list `[path, (resx, resy), timestamp]`
built by `discover` from a `_hash_img` result. -/
structure Img where
  path : String
  resw : Nat
  resh : Nat
  ts : Int
deriving Repr, DecidableEq

/-- The image database: hash string to insertion-ordered bucket of records,
keys in insertion order (Python `defaultdict(list)`). -/
abbrev Db := List (String × List Img)

/-- The configuration keys of the `config` dict that the core pipeline
reads (`file_naming`, `duplicate_handling`, `delete_input`, `inputs`,
`output`); `threads` and `persist_input` do not affect any result value. -/
structure Config where
  file_naming : String
  duplicate_handling : String
  delete_input : Bool
  inputs : List String
  output : String
deriving Repr, DecidableEq

/-! ### String primitives

Python's `str.startswith`, `str.endswith`, `str.split` and decimal
parsing, defined by structural recursion over the character list so that
every use reduces inside the kernel. -/

/-- Character-list prefix test. -/
def listPrefixOf : List Char → List Char → Bool
  | [], _ => true
  | _, [] => false
  | a :: as, b :: bs => a = b && listPrefixOf as bs

/-- Embeds `s.startswith(pre)`. -/
def strStartsWith (s pre : String) : Bool :=
  listPrefixOf pre.toList s.toList

/-- Embeds `s.endswith(suf)`. -/
def strEndsWith (s suf : String) : Bool :=
  listPrefixOf suf.toList.reverse s.toList.reverse

/-- Split a character list at every occurrence of `sep`. -/
def splitOnCharList (sep : Char) : List Char → List (List Char)
  | [] => [[]]
  | c :: rest =>
    match splitOnCharList sep rest with
    | [] => [[c]]
    | g :: gs => if c = sep then [] :: g :: gs else (c :: g) :: gs

/-- Embeds `s.split(sep)` for a one-character separator. -/
def strSplitOnChar (sep : Char) (s : String) : List String :=
  (splitOnCharList sep s.toList).map (fun l => ⟨l⟩)

/-- Decimal digit value of a character, if it is a digit. -/
def charDigit? (c : Char) : Option Nat :=
  if '0' ≤ c ∧ c ≤ '9' then some (c.toNat - '0'.toNat) else none

/-- Accumulate decimal digits. -/
def digitsToNat : List Char → Nat → Option Nat
  | [], acc => some acc
  | c :: rest, acc =>
    match charDigit? c with
    | none => none
    | some d => digitsToNat rest (acc * 10 + d)

/-- Embeds `int(s)` on a non-empty all-digit string, `none` otherwise
(the shape the `strptime` field regex accepts). -/
def strToNat? (s : String) : Option Nat :=
  match s.toList with
  | [] => none
  | cs => digitsToNat cs 0

/-! ### Path helpers (`os.path`) -/

/-- Embeds `os.path.join(a, b)` (POSIX, two arguments): an absolute second
component replaces the first, otherwise a separator is inserted unless one
is already present or the first component is empty. -/
def osPathJoin (a b : String) : String :=
  if strStartsWith b "/" then b
  else if a = "" || strEndsWith a "/" then a ++ b
  else a ++ "/" ++ b

/-- Embeds `os.path.basename` (POSIX): the part after the last slash. -/
def basename (p : String) : String :=
  ((strSplitOnChar '/' p).getLast?).getD p

/-- Index of the last occurrence of `c` in `cs`, if any. -/
def lastIdxOf (c : Char) (cs : List Char) : Option Nat :=
  match cs.reverse.findIdx? (fun x => x = c) with
  | none => none
  | some j => some (cs.length - 1 - j)

/-- Embeds `os.path.splitext` on a basename (no slashes): split at the last
dot, except that a run of leading dots never starts an extension. -/
def splitext (s : String) : String × String :=
  let cs := s.toList
  match lastIdxOf '.' cs with
  | none => (s, "")
  | some i =>
    if (cs.take i).all (fun x => x = '.') then (s, "")
    else (⟨cs.take i⟩, ⟨cs.drop i⟩)

/-! ### Calendar conversion (`time.localtime` / `time.mktime`)

Epoch seconds to proleptic-Gregorian civil date and back, with an explicit
UTC offset standing for the host's local timezone. -/

/-- Broken-down local time, the fields of `time.struct_time` used by the
naming template. -/
structure Tm where
  year : Int
  mon : Nat
  mday : Nat
  hour : Nat
  minute : Nat
  sec : Nat
deriving Repr, DecidableEq

/-- Civil date (year, month, day) from days since the Unix epoch. -/
def civilFromDays (z0 : Int) : Int × Nat × Nat :=
  let z := z0 + 719468
  let era : Int := z / 146097
  let doe : Nat := (z % 146097).toNat
  let yoe : Nat := (doe - doe / 1460 + doe / 36524 - doe / 146096) / 365
  let y : Int := (yoe : Int) + era * 400
  let doy : Nat := doe - (365 * yoe + yoe / 4 - yoe / 100)
  let mp : Nat := (5 * doy + 2) / 153
  let d : Nat := doy - (153 * mp + 2) / 5 + 1
  let m : Nat := if mp < 10 then mp + 3 else mp - 9
  (if m ≤ 2 then y + 1 else y, m, d)

/-- Embeds `time.localtime(ts)` at UTC offset `tz` seconds. -/
def localtime (tz : Int) (ts : Int) : Tm :=
  let t := ts + tz
  let days := t / 86400
  let sod : Nat := (t % 86400).toNat
  let c := civilFromDays days
  { year := c.1, mon := c.2.1, mday := c.2.2,
    hour := sod / 3600, minute := sod % 3600 / 60, sec := sod % 60 }

/-- Days since the Unix epoch from a civil date (inverse of
`civilFromDays`). -/
def daysFromCivil (y : Int) (m d : Nat) : Int :=
  let y' : Int := if m ≤ 2 then y - 1 else y
  let era : Int := y' / 400
  let yoe : Nat := (y' - era * 400).toNat
  let mp : Nat := if 2 < m then m - 3 else m + 9
  let doy : Nat := (153 * mp + 2) / 5 + d - 1
  let doe : Nat := 365 * yoe + yoe / 4 - yoe / 100 + doy
  era * 146097 + (doe : Int) - 719468

/-- Embeds `time.mktime` on a broken-down local time at UTC offset `tz`. -/
def mktime (tz : Int) (y : Int) (mo d h mi s : Nat) : Int :=
  daysFromCivil y mo d * 86400 + ((h * 3600 + mi * 60 + s : Nat) : Int) - tz

/-! ### `time.strftime` on the directives a naming template can use -/

/-- English month name, as `%B` renders it in the C locale. -/
def monthName : Nat → String
  | 1 => "January"
  | 2 => "February"
  | 3 => "March"
  | 4 => "April"
  | 5 => "May"
  | 6 => "June"
  | 7 => "July"
  | 8 => "August"
  | 9 => "September"
  | 10 => "October"
  | 11 => "November"
  | 12 => "December"
  | _ => ""

/-- Zero-padded two-digit rendering used by `%d`, `%m`, `%H`, `%M`, `%S`. -/
def pad2 (n : Nat) : String :=
  if n < 10 then "0" ++ toString n else toString n

/-- One `%` directive of `time.strftime`. -/
def strfDirective (c : Char) (tm : Tm) : String :=
  if c = 'Y' then toString tm.year
  else if c = 'B' then monthName tm.mon
  else if c = 'd' then pad2 tm.mday
  else if c = 'm' then pad2 tm.mon
  else if c = 'H' then pad2 tm.hour
  else if c = 'M' then pad2 tm.minute
  else if c = 'S' then pad2 tm.sec
  else if c = '%' then "%"
  else String.singleton '%' ++ String.singleton c

/-- Embeds `time.strftime` over the format's character list. -/
def strftimeChars : List Char → Tm → String
  | '%' :: c :: rest, tm => strfDirective c tm ++ strftimeChars rest tm
  | c :: rest, tm => String.singleton c ++ strftimeChars rest tm
  | [], _ => ""

/-- Embeds `time.strftime(fmt, tm)`. -/
def strftimeS (fmt : String) (tm : Tm) : String :=
  strftimeChars fmt.toList tm

/-! ### `str.format` on the keys `_name` supplies -/

/-- Embeds `template.format(filename=fn, resx=rx, resy=ry)` for the three
placeholder keys `_name` passes. -/
def pyFormat : List Char → String → Nat → Nat → String
  | '{' :: 'f' :: 'i' :: 'l' :: 'e' :: 'n' :: 'a' :: 'm' :: 'e' :: '}' :: rest, fn, rx, ry =>
      fn ++ pyFormat rest fn rx ry
  | '{' :: 'r' :: 'e' :: 's' :: 'x' :: '}' :: rest, fn, rx, ry =>
      toString rx ++ pyFormat rest fn rx ry
  | '{' :: 'r' :: 'e' :: 's' :: 'y' :: '}' :: rest, fn, rx, ry =>
      toString ry ++ pyFormat rest fn rx ry
  | c :: rest, fn, rx, ry => String.singleton c ++ pyFormat rest fn rx ry
  | [], _, _, _ => ""

/-- Wrapper for `str.format` on `String`. -/
def pyFormatS (s : String) (fn : String) (rx ry : Nat) : String :=
  pyFormat s.toList fn rx ry

/-! ### `_name` -/

/-- Embeds `_name(config, img)`: strftime the template against the
record's local timestamp, substitute filename stem and resolution, append
the original extension, and join under the output root. -/
def _name (tz : Int) (cfg : Config) (img : Img) : String :=
  let template := strftimeS cfg.file_naming (localtime tz img.ts)
  let bn := (splitext (basename img.path)).1
  let ext := (splitext (basename img.path)).2
  osPathJoin cfg.output (pyFormatS template bn img.resw img.resh ++ ext)

/-! ### `_resolve` -/

/-- One step of the candidate-tracking loop in `_resolve`: each branch
compares a single field with a strict inequality, so the running candidate
is replaced only by a strictly better record. -/
def stepCandidate (strategy : String) (candidate img : Img) : Img :=
  if strategy = "highest_resolution" then
    (if img.resw > candidate.resw then img else candidate)
  else if strategy = "lowest_resolution" then
    (if img.resw < candidate.resw then img else candidate)
  else if strategy = "newest" then
    (if img.ts > candidate.ts then img else candidate)
  else if strategy = "oldest" then
    (if img.ts < candidate.ts then img else candidate)
  else candidate

/-- The candidate selected by the `_resolve` loop over a non-empty bucket
`first :: rest` (the first record seeds `candidate`). -/
def pickCandidate (strategy : String) (first : Img) (rest : List Img) : Img :=
  rest.foldl (stepCandidate strategy) first

/-- Embeds `_resolve(config, imgs, h, newdb)`: returns the bucket stored
into `newdb[h]` together with the returned source/destination pairs.
`none` marks the `IndexError` that `candidate[0]` raises on an empty
bucket under a non-`none` strategy (never reached by the pipeline, whose
buckets are non-empty by construction). -/
def _resolve (tz : Int) (cfg : Config) (imgs : List Img) :
    Option (List Img × List (String × String)) :=
  if cfg.duplicate_handling = "none" then
    some (imgs, imgs.map (fun img => (img.path, _name tz cfg img)))
  else
    match imgs with
    | [] => none
    | first :: rest =>
      let candidate := pickCandidate cfg.duplicate_handling first rest
      if strStartsWith candidate.path cfg.output then
        some ([⟨candidate.path, candidate.resw, candidate.resh, candidate.ts⟩], [])
      else
        let dst := _name tz cfg candidate
        some ([⟨dst, candidate.resw, candidate.resh, candidate.ts⟩],
              [(candidate.path, dst)])

/-! ### `_get_timestamp` and `_hash_img`

`time.strptime(s, "%Y:%m:%d %H:%M:%S")` raises `ValueError` on a
malformed string; `_get_timestamp` does not catch it, and in `_hash_img`
only `Image.open` sits inside the `try`, so the error escapes the hasher.
The embeddings use `Except Unit` with `.error ()` for the escaping
`ValueError`. -/

/-- Parse a decimal field and check the range `strptime` enforces for its
directive. -/
def parseNatIn (lo hi : Nat) (s : String) : Option Nat :=
  match strToNat? s with
  | some n => if lo ≤ n ∧ n ≤ hi then some n else none
  | none => none

/-- Embeds `time.strptime(s, "%Y:%m:%d %H:%M:%S")`: `none` is the
`ValueError` raised on a string not of that shape. -/
def strptimeExif (s : String) : Option (Int × Nat × Nat × Nat × Nat × Nat) :=
  match strSplitOnChar ' ' s with
  | [datePart, timePart] =>
    match strSplitOnChar ':' datePart, strSplitOnChar ':' timePart with
    | [ys, ms, ds], [hs, ins, ss] =>
      match parseNatIn 0 9999 ys, parseNatIn 1 12 ms, parseNatIn 1 31 ds,
            parseNatIn 0 23 hs, parseNatIn 0 59 ins, parseNatIn 0 61 ss with
      | some y, some mo, some d, some h, some mi, some sec =>
          some ((y : Int), mo, d, h, mi, sec)
      | _, _, _, _, _, _ => none
    | _, _ => none
  | _ => none

/-- Embeds `_get_timestamp(fd, f)`: the EXIF `Image DateTime` tag when
present (parsed with `strptime` then `mktime`; an unparsable value is an
uncaught `ValueError`, `.error ()`), else the file's mtime. -/
def _get_timestamp (tz : Int) (exifDT : Option String) (mtime : Int) : Except Unit Int :=
  match exifDT with
  | some s =>
    match strptimeExif s with
    | some (y, mo, d, h, mi, sec) => .ok (mktime tz y mo d h mi sec)
    | none => .error ()
  | none => .ok mtime

/-- The facts about one file that `_hash_img` extracts through PIL,
imagehash, exifread and the OS: whether `Image.open` succeeds (and the
decoded size), the perceptual-hash string, the EXIF `Image DateTime` tag,
and the file's mtime. -/
structure FileInfo where
  decoded : Option (Nat × Nat)
  phash : String
  exifDT : Option String
  mtime : Int
deriving Repr, DecidableEq

/-- The value `_hash_img` returns: `notImage` is the sentinel list
`['', None, '']` of the decode-failure branch, `hashed` the normal
`[h, res, ts]` triple. -/
inductive HashOut where
  | notImage
  | hashed (h : String) (res : Nat × Nat) (ts : Int)
deriving Repr, DecidableEq

/-- Embeds `_hash_img(f)`: the `try/except` covers only `Image.open`, so
decode failure yields the sentinel, while a `ValueError` escaping
`_get_timestamp` escapes `_hash_img` too (`.error ()`). -/
def _hash_img (tz : Int) (fi : FileInfo) : Except Unit HashOut :=
  match fi.decoded with
  | none => .ok .notImage
  | some res =>
    match _get_timestamp tz fi.exifDT fi.mtime with
    | .error e => .error e
    | .ok ts => .ok (.hashed fi.phash res ts)

/-! ### `discover`

The directory walk plus hashing pool is embedded as the list of walked
files, each paired with the pool outcome for its `_hash_img` job: either
a `TimeoutError` from `.get`, or the `FileInfo` the worker read. -/

/-- Outcome of one `pool.apply_async(_hash_img, (f,)).get(timeout=1000)`. -/
inductive FileEvent where
  | timeout
  | hashed (fi : FileInfo)

/-- Append `db[h].append(img)` on the insertion-ordered association list. -/
def dbAppend : Db → String → Img → Db
  | [], h, img => [(h, [img])]
  | (k, v) :: rest, h, img =>
    if k = h then (k, v ++ [img]) :: rest else (k, v) :: dbAppend rest h img

/-- Embeds the per-file loop of `discover(config, db)` over the walked
files: a timeout warns and skips, a falsy hash (`if h:`) skips silently,
otherwise the record is appended to its bucket.  `none` is an exception
other than `TimeoutError` escaping `.get` and aborting `discover`. -/
def discover (tz : Int) : List (String × FileEvent) → Db → List String →
    Option (Db × List String)
  | [], db, warns => some (db, warns)
  | (f, ev) :: rest, db, warns =>
    match ev with
    | .timeout => discover tz rest db (warns ++ ["Timeout hashing file " ++ f])
    | .hashed fi =>
      match _hash_img tz fi with
      | .error _ => none
      | .ok .notImage => discover tz rest db warns
      | .ok (.hashed h res ts) =>
        if h = "" then discover tz rest db warns
        else discover tz rest (dbAppend db h ⟨f, res.1, res.2, ts⟩) warns

/-! ### Index persistence (`load_db` / `save_db`)

The pickle byte stream is embedded as a token list; `pickleDumps` and
`pickleLoads` embed `pickle.dump`/`pickle.load` of the database dict.
The file system is a map from path to stored token list. -/

/-- One primitive value in the serialized stream. -/
inductive Tok where
  | tn : Nat → Tok
  | ti : Int → Tok
  | tstr : String → Tok
deriving Repr, DecidableEq

/-- Serialize one record. -/
def encImg (i : Img) : List Tok :=
  [.tstr i.path, .tn i.resw, .tn i.resh, .ti i.ts]

/-- Serialize a bucket's records. -/
def encImgList : List Img → List Tok
  | [] => []
  | i :: rest => encImg i ++ encImgList rest

/-- Serialize one bucket: hash, record count, records. -/
def encBucket (p : String × List Img) : List Tok :=
  [.tstr p.1, .tn p.2.length] ++ encImgList p.2

/-- Serialize the buckets in order. -/
def encDbList : Db → List Tok
  | [] => []
  | b :: rest => encBucket b ++ encDbList rest

/-- Embeds `pickle.dumps(db)`. -/
def pickleDumps (db : Db) : List Tok :=
  Tok.tn db.length :: encDbList db

/-- Decode one record. -/
def decImg : List Tok → Option (Img × List Tok)
  | .tstr p :: .tn w :: .tn h :: .ti t :: rest => some (⟨p, w, h, t⟩, rest)
  | _ => none

/-- Decode `n` records. -/
def decImgs : Nat → List Tok → Option (List Img × List Tok)
  | 0, toks => some ([], toks)
  | n + 1, toks =>
    match decImg toks with
    | none => none
    | some (i, rest) =>
      match decImgs n rest with
      | none => none
      | some (l, rest2) => some (i :: l, rest2)

/-- Decode `n` buckets. -/
def decBuckets : Nat → List Tok → Option (Db × List Tok)
  | 0, toks => some ([], toks)
  | n + 1, toks =>
    match toks with
    | .tstr h :: .tn m :: rest =>
      match decImgs m rest with
      | none => none
      | some (imgs, rest2) =>
        match decBuckets n rest2 with
        | none => none
        | some (db, rest3) => some ((h, imgs) :: db, rest3)
    | _ => none

/-- Embeds `pickle.loads`: `none` is the unpickling error on a stream that
is not a serialized database. -/
def pickleLoads (toks : List Tok) : Option Db :=
  match toks with
  | .tn n :: rest =>
    match decBuckets n rest with
    | some (db, []) => some db
    | _ => none
  | _ => none

/-- The file-system state seen by persistence: stored token stream per
path. -/
def FS : Type := String → Option (List Tok)

/-- Embeds `os.path.abspath` relative to the working directory (path
normalisation beyond the absolute-path test is not needed by any claim:
both `load_db` and `save_db` pass the same `config['output']`). -/
def pyAbspath (cwd p : String) : String :=
  if strStartsWith p "/" then p else osPathJoin cwd p

/-- The store path `os.path.join(os.path.abspath(config['output']), '.picbasket.db')`. -/
def dbfilePath (cwd : String) (cfg : Config) : String :=
  osPathJoin (pyAbspath cwd cfg.output) ".picbasket.db"

/-- Embeds `save_db(config, db)`: overwrite the store file with the
pickled database. -/
def save_db (cwd : String) (cfg : Config) (db : Db) (fs : FS) : FS :=
  fun p => if p = dbfilePath cwd cfg then some (pickleDumps db) else fs p

/-- Embeds `load_db(config)`: unpickle the store file if it exists, else
the empty `defaultdict(list)`. -/
def load_db (cwd : String) (cfg : Config) (fs : FS) : Option Db :=
  match fs (dbfilePath cwd cfg) with
  | some toks => pickleLoads toks
  | none => some []

/-! ### `migrate`

`migrate` resolves every bucket in order, building `newdb`, and submits
each returned source/destination pair to the copy pool.  `_copy` catches
every exception and only warns, and a `TimeoutError` from `.get` also
only warns, so the copy phase can only extend the warning list. -/

/-- Embeds the resolution sweep of `migrate`: fold `_resolve` over the
buckets, collecting `newdb` and the pending copy actions in order. -/
def migrateResolve (tz : Int) (cfg : Config) : Db → Option (Db × List (String × String))
  | [] => some ([], [])
  | (h, imgs) :: rest =>
    match _resolve tz cfg imgs with
    | none => none
    | some (entry, acts) =>
      match migrateResolve tz cfg rest with
      | none => none
      | some (ndb, acts2) => some ((h, entry) :: ndb, acts ++ acts2)

/-- Warnings produced by executing the copy actions, given an oracle
saying whether each copy succeeded (false covers both the broad
`except` in `_copy` and a pool timeout). -/
def copyWarnings (oracle : String → String → Bool) : List (String × String) → List String
  | [] => []
  | (src, dst) :: rest =>
    (if oracle src dst then [] else ["Failed to copy " ++ src ++ " to " ++ dst]) ++
      copyWarnings oracle rest

/-- Embeds `migrate(config, db)`: the resolved database it returns plus
the warnings of the copy phase. -/
def migrate (tz : Int) (cfg : Config) (oracle : String → String → Bool) (db : Db) :
    Option (Db × List String) :=
  match migrateResolve tz cfg db with
  | none => none
  | some (ndb, acts) => some (ndb, copyWarnings oracle acts)

/-- The bucket `_resolve` stores into `newdb[h]` (empty for the
unreachable empty-bucket error case). -/
def resolveEntry (tz : Int) (cfg : Config) (imgs : List Img) : List Img :=
  match _resolve tz cfg imgs with
  | some (entry, _) => entry
  | none => []

/-- The database a second run sees per bucket: the persisted resolved
records first (loaded by `load_db`), then the records re-discovered from
the unchanged inputs appended by `discover`. -/
def rerunDb (tz : Int) (cfg : Config) (db : Db) : Db :=
  db.map (fun p => (p.1, resolveEntry tz cfg p.2 ++ p.2))

/-! ### The candidate loop as a keyed maximum

Each of the four ordered strategies replaces the running candidate exactly
when a strictly larger key is seen, for a per-strategy integer key.  The
generic fold `pickBy` captures this shape. -/

/-- Generic candidate fold: replace the candidate when the key strictly
increases. -/
def pickBy (key : Img → Int) (c : Img) (l : List Img) : Img :=
  l.foldl (fun cand img => if key cand < key img then img else cand) c

/-- The integer key each ordered strategy maximises. -/
def strategyKey (strategy : String) (img : Img) : Int :=
  if strategy = "highest_resolution" then (img.resw : Int)
  else if strategy = "lowest_resolution" then -(img.resw : Int)
  else if strategy = "newest" then img.ts
  else -img.ts

/-- The four ordered (non-`none`) duplicate policies. -/
def OrderedPolicy (s : String) : Prop :=
  s = "highest_resolution" ∨ s = "lowest_resolution" ∨ s = "newest" ∨ s = "oldest"

theorem orderedPolicy_ne_none {s : String} (hs : OrderedPolicy s) : s ≠ "none" := by
  rcases hs with h | h | h | h <;> subst h <;> decide

theorem stepCandidate_eq_key {s : String} (hs : OrderedPolicy s) (c i : Img) :
    stepCandidate s c i = if strategyKey s c < strategyKey s i then i else c := by
  rcases hs with h | h | h | h <;> subst h <;>
    simp [stepCandidate, strategyKey, gt_iff_lt, neg_lt_neg_iff]

theorem pickCandidate_eq_pickBy {s : String} (hs : OrderedPolicy s)
    (first : Img) (rest : List Img) :
    pickCandidate s first rest = pickBy (strategyKey s) first rest := by
  unfold pickCandidate pickBy
  induction rest generalizing first with
  | nil => rfl
  | cons i l ih =>
    simp only [List.foldl_cons, stepCandidate_eq_key hs]
    exact ih _

theorem pickBy_le (key : Img → Int) :
    ∀ (l : List Img) (c : Img), ∀ x ∈ c :: l, key x ≤ key (pickBy key c l) := by
  intro l
  induction l with
  | nil =>
    intro c x hx
    simp only [List.mem_cons, List.not_mem_nil, or_false] at hx
    subst hx; exact le_refl _
  | cons i l ih =>
    intro c x hx
    have hstep : pickBy key c (i :: l) = pickBy key (if key c < key i then i else c) l := rfl
    have hcc : key c ≤ key (if key c < key i then i else c) := by
      by_cases h : key c < key i
      · rw [if_pos h]; exact le_of_lt h
      · rw [if_neg h]
    have hic : key i ≤ key (if key c < key i then i else c) := by
      by_cases h : key c < key i
      · rw [if_pos h]
      · rw [if_neg h]; exact le_of_not_lt h
    have hrec : key (if key c < key i then i else c) ≤
        key (pickBy key (if key c < key i then i else c) l) :=
      ih _ _ (List.mem_cons_self _ _)
    rcases List.mem_cons.mp hx with hx | hx
    · subst hx; rw [hstep]; exact le_trans hcc hrec
    · rcases List.mem_cons.mp hx with hx | hx
      · subst hx; rw [hstep]; exact le_trans hic hrec
      · rw [hstep]; exact ih _ x (List.mem_cons_of_mem _ hx)

theorem pickBy_stays (key : Img → Int) :
    ∀ (l : List Img) (c : Img), (∀ x ∈ l, key x ≤ key c) → pickBy key c l = c := by
  intro l
  induction l with
  | nil => intro c _; rfl
  | cons i l ih =>
    intro c hle
    have hi : key i ≤ key c := hle i (List.mem_cons_self _ _)
    have hstep : pickBy key c (i :: l) = pickBy key (if key c < key i then i else c) l := rfl
    rw [hstep, if_neg (not_lt.mpr hi)]
    exact ih c (fun x hx => hle x (List.mem_cons_of_mem _ hx))

theorem pickBy_split (key : Img → Int) :
    ∀ (l : List Img) (c : Img), ∃ pre post,
      c :: l = pre ++ pickBy key c l :: post ∧
      ∀ x ∈ pre, key x < key (pickBy key c l) := by
  intro l
  induction l with
  | nil => intro c; exact ⟨[], [], rfl, by intro x hx; cases hx⟩
  | cons i l ih =>
    intro c
    have hstep : pickBy key c (i :: l) = pickBy key (if key c < key i then i else c) l := rfl
    by_cases h : key c < key i
    · obtain ⟨pre, post, heq, hlt⟩ := ih i
      rw [hstep, if_pos h]
      cases pre with
      | nil =>
        simp only [List.nil_append] at heq
        have hpick : pickBy key i l = i := (List.cons.injEq _ _ _ _).mp heq |>.1.symm
        have hpost : l = post := (List.cons.injEq _ _ _ _).mp heq |>.2
        refine ⟨[c], post, ?_, ?_⟩
        · simp only [List.cons_append, List.nil_append]
          rw [← hpost, hpick]
        · intro x hx
          simp only [List.mem_singleton] at hx
          subst hx; rw [hpick]; exact h
      | cons p pre2 =>
        simp only [List.cons_append] at heq
        refine ⟨c :: p :: pre2, post, ?_, ?_⟩
        · simp only [List.cons_append]
          exact congrArg (List.cons c) heq
        · intro x hx
          have hp : i = p := (List.cons.injEq _ _ _ _).mp heq |>.1
          have hi_lt : key i < key (pickBy key i l) := by
            apply hlt; rw [hp]; exact List.mem_cons_self _ _
          rcases List.mem_cons.mp hx with hx | hx
          · subst hx; exact lt_trans h hi_lt
          · exact hlt x hx
    · obtain ⟨pre, post, heq, hlt⟩ := ih c
      rw [hstep, if_neg h]
      cases pre with
      | nil =>
        simp only [List.nil_append] at heq
        have hpick : pickBy key c l = c := (List.cons.injEq _ _ _ _).mp heq |>.1.symm
        have hpost : l = post := (List.cons.injEq _ _ _ _).mp heq |>.2
        refine ⟨[], i :: post, ?_, ?_⟩
        · simp only [List.nil_append]
          rw [hpick, ← hpost]
        · intro x hx; cases hx
      | cons p pre2 =>
        simp only [List.cons_append] at heq
        have hp : c = p := (List.cons.injEq _ _ _ _).mp heq |>.1
        have hl : l = pre2 ++ pickBy key c l :: post := (List.cons.injEq _ _ _ _).mp heq |>.2
        refine ⟨c :: i :: pre2, post, ?_, ?_⟩
        · simp only [List.cons_append]
          exact congrArg (fun t => c :: i :: t) hl
        · intro x hx
          have hc_lt : key c < key (pickBy key c l) := by
            apply hlt; rw [hp]; exact List.mem_cons_self _ _
          rcases List.mem_cons.mp hx with hx | hx
          · subst hx; exact hc_lt
          · rcases List.mem_cons.mp hx with hx | hx
            · subst hx; exact lt_of_le_of_lt (le_of_not_lt h) hc_lt
            · exact hlt x (List.mem_cons_of_mem _ hx)

theorem pickBy_map (key : Img → Int) (f : Img → Img) (hf : ∀ x, key (f x) = key x) :
    ∀ (l : List Img) (c : Img), pickBy key (f c) (l.map f) = f (pickBy key c l) := by
  intro l
  induction l with
  | nil => intro c; rfl
  | cons i l ih =>
    intro c
    have hstep : pickBy key (f c) (f i :: l.map f) =
        pickBy key (if key (f c) < key (f i) then f i else f c) (l.map f) := rfl
    simp only [List.map_cons, hstep, hf]
    have : (if key c < key i then f i else f c) = f (if key c < key i then i else c) :=
      (apply_ite f _ _ _).symm
    rw [this, ih]
    rfl

/-! ### Shared unfolding and round-trip lemmas -/

theorem resolve_cons (tz : Int) (cfg : Config) (first : Img) (rest : List Img)
    (hne : cfg.duplicate_handling ≠ "none") :
    _resolve tz cfg (first :: rest) =
      (if strStartsWith (pickCandidate cfg.duplicate_handling first rest).path cfg.output then
        some ([pickCandidate cfg.duplicate_handling first rest], [])
      else
        some ([⟨_name tz cfg (pickCandidate cfg.duplicate_handling first rest),
               (pickCandidate cfg.duplicate_handling first rest).resw,
               (pickCandidate cfg.duplicate_handling first rest).resh,
               (pickCandidate cfg.duplicate_handling first rest).ts⟩],
              [((pickCandidate cfg.duplicate_handling first rest).path,
                _name tz cfg (pickCandidate cfg.duplicate_handling first rest))])) := by
  unfold _resolve
  rw [if_neg hne]

theorem strategyKey_path_irrel (s : String) (p : String) (i : Img) :
    strategyKey s ⟨p, i.resw, i.resh, i.ts⟩ = strategyKey s i := rfl

theorem decImg_enc (i : Img) (r : List Tok) : decImg (encImg i ++ r) = some (i, r) := by
  cases i; rfl

theorem decImgs_enc (l : List Img) (r : List Tok) :
    decImgs l.length (encImgList l ++ r) = some (l, r) := by
  induction l generalizing r with
  | nil => rfl
  | cons i l ih =>
    simp only [List.length_cons, encImgList, List.append_assoc, decImgs, decImg_enc, ih]

theorem decBuckets_enc (db : Db) (r : List Tok) :
    decBuckets db.length (encDbList db ++ r) = some (db, r) := by
  induction db generalizing r with
  | nil => rfl
  | cons b rest ih =>
    obtain ⟨h, imgs⟩ := b
    simp only [List.length_cons, encDbList, encBucket, List.cons_append, List.nil_append,
      List.append_assoc, decBuckets, decImgs_enc, ih]

theorem pickle_roundtrip (db : Db) : pickleLoads (pickleDumps db) = some db := by
  simp only [pickleDumps, pickleLoads]
  have h := decBuckets_enc db []
  rw [List.append_nil] at h
  rw [h]

/-- A configuration with the default naming template and the given policy
and output root, as `load_config` builds it. -/
def mkConfig (policy outdir : String) : Config :=
  { file_naming := "%Y/%B/%d_{filename}_{resy}", duplicate_handling := policy,
    delete_input := false, inputs := ["/in"], output := outdir }

/-! ### Claim C2 -/

/-- C2, counterexample: under the `none` policy a record whose path
already lies under the output root is NOT elided — `_resolve` emits a
copy action for it anyway (`/out/x.jpg` is under output root `/out`, yet
the returned action list contains an action for it). -/
theorem c2_counterexample :
    strStartsWith "/out/x.jpg" "/out" = true ∧
    strStartsWith "/out/x.jpg" "/out/" = true ∧
    _resolve 0 (mkConfig "none" "/out") [⟨"/out/x.jpg", 800, 600, 0⟩] =
      some ([⟨"/out/x.jpg", 800, 600, 0⟩],
            [("/out/x.jpg", "/out/1970/January/01_x_600.jpg")]) := by
  refine ⟨by decide, by decide, ?_⟩
  decide

/-- C2, amended: under the `none` duplicate policy, for every record in
every bucket a pending copy action is emitted unconditionally — one
action per record, each pairing the record's path with its computed
destination — with no elision for records already under the output root;
the bucket is stored unresolved. -/
theorem c2_none_policy_actions (tz : Int) (cfg : Config) (imgs : List Img)
    (hs : cfg.duplicate_handling = "none") :
    _resolve tz cfg imgs =
      some (imgs, imgs.map (fun img => (img.path, _name tz cfg img))) ∧
    (imgs.map (fun img => (img.path, _name tz cfg img))).length = imgs.length := by
  constructor
  · unfold _resolve; rw [if_pos hs]
  · exact List.length_map _ _

/-- Witness for `c2_none_policy_actions` at a concrete bucket. -/
theorem c2_none_policy_actions_witness :
    (mkConfig "none" "/out").duplicate_handling = "none" ∧
    _resolve 0 (mkConfig "none" "/out") [⟨"/out/x.jpg", 800, 600, 0⟩] =
      some ([⟨"/out/x.jpg", 800, 600, 0⟩],
            [("/out/x.jpg", "/out/1970/January/01_x_600.jpg")]) := by
  refine ⟨rfl, ?_⟩
  rw [(c2_none_policy_actions 0 (mkConfig "none" "/out")
        [⟨"/out/x.jpg", 800, 600, 0⟩] rfl).1]
  decide

/-! ### Claim C4 -/

/-- C4: for a bucket resolved under a non-`none` policy whose selected
candidate is not under the output root, `_resolve` stores the candidate
at its computed destination path (not its source path) into the resolved
database and emits the copy action; and the resolved database returned by
`migrate` does not depend on whether copies succeed or fail (the copy
oracle), so a copy failure can only add warnings, never remove the
already-written entry. -/
theorem c4_destination_recorded (tz : Int) (cfg : Config) (first : Img) (rest : List Img)
    (hne : cfg.duplicate_handling ≠ "none")
    (hstart : strStartsWith (pickCandidate cfg.duplicate_handling first rest).path
      cfg.output = false) :
    _resolve tz cfg (first :: rest) =
      some ([⟨_name tz cfg (pickCandidate cfg.duplicate_handling first rest),
             (pickCandidate cfg.duplicate_handling first rest).resw,
             (pickCandidate cfg.duplicate_handling first rest).resh,
             (pickCandidate cfg.duplicate_handling first rest).ts⟩],
            [((pickCandidate cfg.duplicate_handling first rest).path,
              _name tz cfg (pickCandidate cfg.duplicate_handling first rest))]) ∧
    ∀ (db : Db) (o1 o2 : String → String → Bool),
      Option.map Prod.fst (migrate tz cfg o1 db) =
        Option.map Prod.fst (migrate tz cfg o2 db) := by
  constructor
  · rw [resolve_cons tz cfg first rest hne,
      if_neg (by rw [hstart]; exact Bool.false_ne_true)]
  · intro db o1 o2
    unfold migrate
    cases hmr : migrateResolve tz cfg db with
    | none => rfl
    | some p => rfl

/-- Witness for `c4_destination_recorded`: a concrete input-side
candidate is recorded at its destination, and the resolved database is
the same whether every copy fails or every copy succeeds. -/
theorem c4_destination_recorded_witness :
    (mkConfig "highest_resolution" "/out").duplicate_handling ≠ "none" ∧
    _resolve 0 (mkConfig "highest_resolution" "/out")
        [⟨"/in/img.jpg", 800, 600, 1683158400⟩] =
      some ([⟨"/out/2023/May/04_img_600.jpg", 800, 600, 1683158400⟩],
            [("/in/img.jpg", "/out/2023/May/04_img_600.jpg")]) ∧
    Option.map Prod.fst (migrate 0 (mkConfig "highest_resolution" "/out")
        (fun _ _ => false) [("h1", [⟨"/in/img.jpg", 800, 600, 1683158400⟩])]) =
      Option.map Prod.fst (migrate 0 (mkConfig "highest_resolution" "/out")
        (fun _ _ => true) [("h1", [⟨"/in/img.jpg", 800, 600, 1683158400⟩])]) := by
  have h := c4_destination_recorded 0 (mkConfig "highest_resolution" "/out")
    ⟨"/in/img.jpg", 800, 600, 1683158400⟩ [] (by decide) (by decide)
  refine ⟨by decide, ?_, ?_⟩
  · rw [h.1]; decide
  · exact h.2 [("h1", [⟨"/in/img.jpg", 800, 600, 1683158400⟩])] (fun _ _ => false)
      (fun _ _ => true)

/-! ### Claim C5 -/

/-- C5: index persistence round-trips — loading immediately after saving
returns the saved Index, for every Index, and loading when no store file
exists returns the empty Index. -/
theorem c5_persistence_roundtrip (cwd : String) (cfg : Config) (db : Db) (fs : FS) :
    load_db cwd cfg (save_db cwd cfg db fs) = some db ∧
    (fs (dbfilePath cwd cfg) = none → load_db cwd cfg fs = some []) := by
  constructor
  · unfold load_db save_db
    rw [if_pos rfl]
    exact pickle_roundtrip db
  · intro h
    unfold load_db
    rw [h]

/-- Witness for `c5_persistence_roundtrip` on a concrete non-empty
Index and the empty file system. -/
theorem c5_persistence_roundtrip_witness :
    load_db "/" (mkConfig "none" "/out")
        (save_db "/" (mkConfig "none" "/out")
          [("h1", [⟨"/in/a.jpg", 800, 600, 5⟩])] (fun _ => none)) =
      some [("h1", [⟨"/in/a.jpg", 800, 600, 5⟩])] ∧
    load_db "/" (mkConfig "none" "/out") (fun _ => none) = some [] := by
  have h := c5_persistence_roundtrip "/" (mkConfig "none" "/out")
    [("h1", [⟨"/in/a.jpg", 800, 600, 5⟩])] (fun _ => none)
  exact ⟨h.1, h.2 rfl⟩

/-! ### Claim C8 -/

/-- C8: for a bucket resolved under a non-`none` policy whose selected
candidate's path already lies under the output root (string-prefix
test), no copy action is emitted and the candidate still appears in the
resolved bucket at its existing path with resolution and timestamp
unchanged (the stored entry is exactly the candidate record). -/
theorem c8_output_candidate_kept (tz : Int) (cfg : Config) (first : Img) (rest : List Img)
    (hne : cfg.duplicate_handling ≠ "none")
    (hstart : strStartsWith (pickCandidate cfg.duplicate_handling first rest).path
      cfg.output = true) :
    _resolve tz cfg (first :: rest) =
      some ([pickCandidate cfg.duplicate_handling first rest], []) := by
  rw [resolve_cons tz cfg first rest hne, if_pos hstart]

/-- Witness for `c8_output_candidate_kept` at a concrete bucket whose
candidate already sits under the output root. -/
theorem c8_output_candidate_kept_witness :
    (mkConfig "highest_resolution" "/out").duplicate_handling ≠ "none" ∧
    _resolve 0 (mkConfig "highest_resolution" "/out")
        [⟨"/out/a.jpg", 800, 600, 0⟩] =
      some ([⟨"/out/a.jpg", 800, 600, 0⟩], []) := by
  refine ⟨by decide, ?_⟩
  exact c8_output_candidate_kept 0 (mkConfig "highest_resolution" "/out")
    ⟨"/out/a.jpg", 800, 600, 0⟩ [] (by decide) (by decide)

/-! ### Claim C9 -/

/-- C9: for a file that cannot be decoded as an image, `_hash_img`
returns the "not an image" sentinel instead of raising, and `discover`
then skips that file silently: the database and warning list are exactly
what they would be without the file, and processing continues with the
remaining files. -/
theorem c9_undecodable_skipped (tz : Int) (fi : FileInfo) (f : String)
    (rest : List (String × FileEvent)) (db : Db) (warns : List String)
    (hdec : fi.decoded = none) :
    _hash_img tz fi = .ok .notImage ∧
    discover tz ((f, .hashed fi) :: rest) db warns = discover tz rest db warns := by
  have h1 : _hash_img tz fi = .ok .notImage := by
    unfold _hash_img; rw [hdec]
  refine ⟨h1, ?_⟩
  simp only [discover, h1]

/-- Witness for `c9_undecodable_skipped` on a concrete undecodable file
followed by no further files. -/
theorem c9_undecodable_skipped_witness :
    (FileInfo.mk none "" none 0).decoded = none ∧
    (_hash_img 0 (FileInfo.mk none "" none 0) = .ok .notImage ∧
     discover 0 [("/in/x.txt", .hashed (FileInfo.mk none "" none 0))] [] [] =
       discover 0 [] [] []) :=
  ⟨rfl, c9_undecodable_skipped 0 (FileInfo.mk none "" none 0) "/in/x.txt" [] [] [] rfl⟩

/-! ### Claim C10 -/

/-- C10: the already-in-output test of `_resolve` is a plain string
prefix comparison: the candidate `/outback/img.jpg` merely begins with
the output string `/out` without lying inside the `/out` directory tree
(it does not start with `/out/` and is not `/out` itself), yet no copy
action is emitted and the candidate is kept in the resolved bucket at
that path. -/
theorem c10_prefix_not_subtree :
    strStartsWith "/outback/img.jpg" "/out" = true ∧
    strStartsWith "/outback/img.jpg" "/out/" = false ∧
    "/outback/img.jpg" ≠ "/out" ∧
    _resolve 0 (mkConfig "highest_resolution" "/out")
        [⟨"/outback/img.jpg", 800, 600, 0⟩] =
      some ([⟨"/outback/img.jpg", 800, 600, 0⟩], []) := by
  refine ⟨by decide, by decide, by decide, ?_⟩
  decide

/-! ### Claim C1 -/

/-- C1: for a bucket resolved under the `highest_resolution` policy, the
single retained record has the candidate's width, height and timestamp,
every record's width in the bucket is at most the candidate's width, the
candidate is the first record of maximal width (everything before it in
bucket order has strictly smaller width, so equal-width ties go to the
first-encountered record), and the selection compares widths only: any
modification of the heights leaves the same record selected. -/
theorem c1_highest_resolution_bucket (tz : Int) (cfg : Config) (first : Img)
    (rest : List Img) (hs : cfg.duplicate_handling = "highest_resolution") :
    (∀ x ∈ first :: rest, x.resw ≤ (pickCandidate cfg.duplicate_handling first rest).resw) ∧
    (∃ pre post,
       first :: rest = pre ++ pickCandidate cfg.duplicate_handling first rest :: post ∧
       ∀ x ∈ pre, x.resw < (pickCandidate cfg.duplicate_handling first rest).resw) ∧
    (∃ acts, _resolve tz cfg (first :: rest) =
       some ([⟨(if strStartsWith (pickCandidate cfg.duplicate_handling first rest).path
                    cfg.output
                then (pickCandidate cfg.duplicate_handling first rest).path
                else _name tz cfg (pickCandidate cfg.duplicate_handling first rest)),
              (pickCandidate cfg.duplicate_handling first rest).resw,
              (pickCandidate cfg.duplicate_handling first rest).resh,
              (pickCandidate cfg.duplicate_handling first rest).ts⟩], acts)) ∧
    (∀ g : Img → Nat,
       pickCandidate cfg.duplicate_handling { first with resh := g first }
         (rest.map (fun i => { i with resh := g i })) =
       { pickCandidate cfg.duplicate_handling first rest with
           resh := g (pickCandidate cfg.duplicate_handling first rest) }) := by
  have hOP : OrderedPolicy cfg.duplicate_handling := Or.inl hs
  have hnn : cfg.duplicate_handling ≠ "none" := orderedPolicy_ne_none hOP
  have hbridge := pickCandidate_eq_pickBy hOP first rest
  have hkey : ∀ i : Img, strategyKey cfg.duplicate_handling i = (i.resw : Int) := by
    intro i; rw [hs]; rfl
  refine ⟨?_, ?_, ?_, ?_⟩
  · intro x hx
    have h := pickBy_le (strategyKey cfg.duplicate_handling) rest first x hx
    rw [← hbridge] at h
    rw [hkey, hkey] at h
    exact_mod_cast h
  · obtain ⟨pre, post, heq, hlt⟩ := pickBy_split (strategyKey cfg.duplicate_handling) rest first
    rw [← hbridge] at heq hlt
    refine ⟨pre, post, heq, ?_⟩
    intro x hx
    have h := hlt x hx
    rw [hkey, hkey] at h
    exact_mod_cast h
  · by_cases hst : strStartsWith (pickCandidate cfg.duplicate_handling first rest).path cfg.output
    · refine ⟨[], ?_⟩
      rw [resolve_cons tz cfg first rest hnn, if_pos hst, if_pos hst]
    · refine ⟨[((pickCandidate cfg.duplicate_handling first rest).path,
          _name tz cfg (pickCandidate cfg.duplicate_handling first rest))], ?_⟩
      rw [resolve_cons tz cfg first rest hnn, if_neg hst, if_neg hst]
  · intro g
    have hmap := pickBy_map (strategyKey cfg.duplicate_handling)
      (fun i => { i with resh := g i }) (fun x => by rw [hs]; rfl) rest first
    rw [pickCandidate_eq_pickBy hOP, pickCandidate_eq_pickBy hOP]
    exact hmap

/-- Witness for `c1_highest_resolution_bucket` on a bucket with a
width tie: `b.jpg` (800 wide, earlier) is retained over `c.jpg`
(800 wide, later) and over `a.jpg` (640 wide). -/
theorem c1_highest_resolution_bucket_witness :
    (mkConfig "highest_resolution" "/out").duplicate_handling = "highest_resolution" ∧
    ((∀ x ∈ (⟨"/in/a.jpg", 640, 480, 0⟩ : Img) ::
          [⟨"/in/b.jpg", 800, 600, 0⟩, ⟨"/in/c.jpg", 800, 600, 5⟩],
        x.resw ≤ (pickCandidate (mkConfig "highest_resolution" "/out").duplicate_handling
          ⟨"/in/a.jpg", 640, 480, 0⟩
          [⟨"/in/b.jpg", 800, 600, 0⟩, ⟨"/in/c.jpg", 800, 600, 5⟩]).resw) ∧
     (∃ pre post,
        (⟨"/in/a.jpg", 640, 480, 0⟩ : Img) ::
            [⟨"/in/b.jpg", 800, 600, 0⟩, ⟨"/in/c.jpg", 800, 600, 5⟩] =
          pre ++ pickCandidate (mkConfig "highest_resolution" "/out").duplicate_handling
            ⟨"/in/a.jpg", 640, 480, 0⟩
            [⟨"/in/b.jpg", 800, 600, 0⟩, ⟨"/in/c.jpg", 800, 600, 5⟩] :: post ∧
        ∀ x ∈ pre, x.resw <
          (pickCandidate (mkConfig "highest_resolution" "/out").duplicate_handling
            ⟨"/in/a.jpg", 640, 480, 0⟩
            [⟨"/in/b.jpg", 800, 600, 0⟩, ⟨"/in/c.jpg", 800, 600, 5⟩]).resw) ∧
     (∃ acts, _resolve 0 (mkConfig "highest_resolution" "/out")
         ((⟨"/in/a.jpg", 640, 480, 0⟩ : Img) ::
           [⟨"/in/b.jpg", 800, 600, 0⟩, ⟨"/in/c.jpg", 800, 600, 5⟩]) =
       some ([⟨(if strStartsWith
                   (pickCandidate (mkConfig "highest_resolution" "/out").duplicate_handling
                     ⟨"/in/a.jpg", 640, 480, 0⟩
                     [⟨"/in/b.jpg", 800, 600, 0⟩, ⟨"/in/c.jpg", 800, 600, 5⟩]).path
                   (mkConfig "highest_resolution" "/out").output
                then (pickCandidate (mkConfig "highest_resolution" "/out").duplicate_handling
                     ⟨"/in/a.jpg", 640, 480, 0⟩
                     [⟨"/in/b.jpg", 800, 600, 0⟩, ⟨"/in/c.jpg", 800, 600, 5⟩]).path
                else _name 0 (mkConfig "highest_resolution" "/out")
                     (pickCandidate (mkConfig "highest_resolution" "/out").duplicate_handling
                       ⟨"/in/a.jpg", 640, 480, 0⟩
                       [⟨"/in/b.jpg", 800, 600, 0⟩, ⟨"/in/c.jpg", 800, 600, 5⟩])),
              (pickCandidate (mkConfig "highest_resolution" "/out").duplicate_handling
                ⟨"/in/a.jpg", 640, 480, 0⟩
                [⟨"/in/b.jpg", 800, 600, 0⟩, ⟨"/in/c.jpg", 800, 600, 5⟩]).resw,
              (pickCandidate (mkConfig "highest_resolution" "/out").duplicate_handling
                ⟨"/in/a.jpg", 640, 480, 0⟩
                [⟨"/in/b.jpg", 800, 600, 0⟩, ⟨"/in/c.jpg", 800, 600, 5⟩]).resh,
              (pickCandidate (mkConfig "highest_resolution" "/out").duplicate_handling
                ⟨"/in/a.jpg", 640, 480, 0⟩
                [⟨"/in/b.jpg", 800, 600, 0⟩, ⟨"/in/c.jpg", 800, 600, 5⟩]).ts⟩], acts)) ∧
     (∀ g : Img → Nat,
        pickCandidate (mkConfig "highest_resolution" "/out").duplicate_handling
            ⟨"/in/a.jpg", 640, g ⟨"/in/a.jpg", 640, 480, 0⟩, 0⟩
            ([⟨"/in/b.jpg", 800, 600, 0⟩, ⟨"/in/c.jpg", 800, 600, 5⟩].map
              (fun i => ⟨i.path, i.resw, g i, i.ts⟩)) =
          ⟨(pickCandidate (mkConfig "highest_resolution" "/out").duplicate_handling
              ⟨"/in/a.jpg", 640, 480, 0⟩
              [⟨"/in/b.jpg", 800, 600, 0⟩, ⟨"/in/c.jpg", 800, 600, 5⟩]).path,
            (pickCandidate (mkConfig "highest_resolution" "/out").duplicate_handling
              ⟨"/in/a.jpg", 640, 480, 0⟩
              [⟨"/in/b.jpg", 800, 600, 0⟩, ⟨"/in/c.jpg", 800, 600, 5⟩]).resw,
            g (pickCandidate (mkConfig "highest_resolution" "/out").duplicate_handling
              ⟨"/in/a.jpg", 640, 480, 0⟩
              [⟨"/in/b.jpg", 800, 600, 0⟩, ⟨"/in/c.jpg", 800, 600, 5⟩]),
            (pickCandidate (mkConfig "highest_resolution" "/out").duplicate_handling
              ⟨"/in/a.jpg", 640, 480, 0⟩
              [⟨"/in/b.jpg", 800, 600, 0⟩, ⟨"/in/c.jpg", 800, 600, 5⟩]).ts⟩)) :=
  ⟨rfl, c1_highest_resolution_bucket 0 (mkConfig "highest_resolution" "/out")
    ⟨"/in/a.jpg", 640, 480, 0⟩
    [⟨"/in/b.jpg", 800, 600, 0⟩, ⟨"/in/c.jpg", 800, 600, 5⟩] rfl⟩

/-! ### Claim C3 -/

/-- C3, counterexample: an embedded capture-time value that is present
but unparsable does NOT fall back to the file's mtime — `strptime`'s
`ValueError` escapes `_get_timestamp` and `_hash_img` (nothing catches
it there), and discovery of that file aborts rather than continuing. -/
theorem c3_counterexample :
    strptimeExif "not a datetime" = none ∧
    _get_timestamp 0 (some "not a datetime") 5 = .error () ∧
    _hash_img 0 ⟨some (800, 600), "abcd", some "not a datetime", 5⟩ = .error () ∧
    discover 0
      [("/in/img.jpg", .hashed ⟨some (800, 600), "abcd", some "not a datetime", 5⟩)]
      [] [] = none :=
  ⟨rfl, rfl, rfl, rfl⟩

/-- C3, amended: the hasher takes the timestamp from the embedded
capture-time field when it is present and parsable, and falls back to
the file's last-modified time only when the field is absent; when the
field is present but unparsable, `strptime`'s `ValueError` escapes
`_get_timestamp` (and hence `_hash_img`) instead of falling back. -/
theorem c3_timestamp_fallback (tz mtime : Int) (s : String) :
    _get_timestamp tz none mtime = .ok mtime ∧
    (∀ y : Int, ∀ mo d h mi sec : Nat,
       strptimeExif s = some (y, mo, d, h, mi, sec) →
       _get_timestamp tz (some s) mtime = .ok (mktime tz y mo d h mi sec)) ∧
    (strptimeExif s = none → _get_timestamp tz (some s) mtime = .error ()) ∧
    (∀ (res : Nat × Nat) (ph : String), strptimeExif s = none →
       _hash_img tz ⟨some res, ph, some s, mtime⟩ = .error ()) := by
  have hunfold : _get_timestamp tz (some s) mtime =
      (match strptimeExif s with
       | some (y, mo, d, h, mi, sec) => Except.ok (mktime tz y mo d h mi sec)
       | none => Except.error ()) := rfl
  refine ⟨rfl, ?_, ?_, ?_⟩
  · intro y mo d h mi sec hp
    rw [hunfold, hp]
  · intro hp
    rw [hunfold, hp]
  · intro res ph hp
    have h2 : _hash_img tz ⟨some res, ph, some s, mtime⟩ =
        (match _get_timestamp tz (some s) mtime with
         | .error e => .error e
         | .ok ts => .ok (.hashed ph res ts)) := rfl
    rw [h2, hunfold, hp]

/-- Witness for `c3_timestamp_fallback`: the common malformed EXIF value
`0000:00:00 00:00:00` errors rather than falling back, absence falls
back to mtime, and a well-formed value is parsed. -/
theorem c3_timestamp_fallback_witness :
    strptimeExif "0000:00:00 00:00:00" = none ∧
    _get_timestamp 0 none 5 = .ok 5 ∧
    _get_timestamp 0 (some "0000:00:00 00:00:00") 5 = .error () ∧
    strptimeExif "2023:05:04 10:20:30" = some (2023, 5, 4, 10, 20, 30) ∧
    _get_timestamp 0 (some "2023:05:04 10:20:30") 5 =
      .ok (mktime 0 2023 5 4 10 20 30) :=
  ⟨rfl, (c3_timestamp_fallback 0 5 "0000:00:00 00:00:00").1,
   (c3_timestamp_fallback 0 5 "0000:00:00 00:00:00").2.2.1 rfl, rfl,
   (c3_timestamp_fallback 0 5 "2023:05:04 10:20:30").2.1 2023 5 4 10 20 30 rfl⟩

/-! ### Claim C6 -/

/-- C6, counterexample: with the `none` duplicate policy the pipeline is
not idempotent — re-resolving a database whose bucket holds the
already-migrated record plus the unchanged re-discovered record emits
two new copy actions, not zero. -/
theorem c6_counterexample :
    (mkConfig "none" "/out").duplicate_handling = "none" ∧
    (migrateResolve 0 (mkConfig "none" "/out")
        (rerunDb 0 (mkConfig "none" "/out")
          [("h1", [⟨"/in/img.jpg", 800, 600, 1683158400⟩])])).map
      (fun p => p.2.length) = some 2 := by
  refine ⟨rfl, ?_⟩
  decide

/-- Helper for C6: under an ordered policy, re-resolving a bucket formed
of its previously resolved entry (which lies under the output root)
followed by the unchanged original records selects the resolved entry
again and emits no copy action. -/
theorem rerun_bucket_no_action (tz : Int) (cfg : Config) (first : Img) (tail : List Img)
    (hs : OrderedPolicy cfg.duplicate_handling)
    (hout : ∀ e ∈ resolveEntry tz cfg (first :: tail),
      strStartsWith e.path cfg.output = true) :
    _resolve tz cfg (resolveEntry tz cfg (first :: tail) ++ first :: tail) =
      some (resolveEntry tz cfg (first :: tail), []) := by
  have hnn := orderedPolicy_ne_none hs
  have hres := resolve_cons tz cfg first tail hnn
  have hstay : ∀ p : String,
      pickCandidate cfg.duplicate_handling
        ⟨p, (pickCandidate cfg.duplicate_handling first tail).resw,
            (pickCandidate cfg.duplicate_handling first tail).resh,
            (pickCandidate cfg.duplicate_handling first tail).ts⟩ (first :: tail) =
      ⟨p, (pickCandidate cfg.duplicate_handling first tail).resw,
          (pickCandidate cfg.duplicate_handling first tail).resh,
          (pickCandidate cfg.duplicate_handling first tail).ts⟩ := by
    intro p
    rw [pickCandidate_eq_pickBy hs]
    apply pickBy_stays
    intro x hx
    rw [strategyKey_path_irrel]
    have h := pickBy_le (strategyKey cfg.duplicate_handling) tail first x hx
    rw [← pickCandidate_eq_pickBy hs] at h
    exact h
  by_cases hst : strStartsWith (pickCandidate cfg.duplicate_handling first tail).path cfg.output
  · have hentry : resolveEntry tz cfg (first :: tail) =
        [pickCandidate cfg.duplicate_handling first tail] := by
      unfold resolveEntry; rw [hres, if_pos hst]
    rw [hentry, List.singleton_append,
      resolve_cons tz cfg (pickCandidate cfg.duplicate_handling first tail)
        (first :: tail) hnn,
      show pickCandidate cfg.duplicate_handling
          (pickCandidate cfg.duplicate_handling first tail) (first :: tail) =
        pickCandidate cfg.duplicate_handling first tail from
        hstay (pickCandidate cfg.duplicate_handling first tail).path,
      if_pos hst]
  · have hentry : resolveEntry tz cfg (first :: tail) =
        [⟨_name tz cfg (pickCandidate cfg.duplicate_handling first tail),
          (pickCandidate cfg.duplicate_handling first tail).resw,
          (pickCandidate cfg.duplicate_handling first tail).resh,
          (pickCandidate cfg.duplicate_handling first tail).ts⟩] := by
      unfold resolveEntry; rw [hres, if_neg hst]
    have hrec_out : strStartsWith
        (_name tz cfg (pickCandidate cfg.duplicate_handling first tail)) cfg.output = true := by
      have hmem : (⟨_name tz cfg (pickCandidate cfg.duplicate_handling first tail),
          (pickCandidate cfg.duplicate_handling first tail).resw,
          (pickCandidate cfg.duplicate_handling first tail).resh,
          (pickCandidate cfg.duplicate_handling first tail).ts⟩ : Img) ∈
          resolveEntry tz cfg (first :: tail) := by
        rw [hentry]; exact List.mem_singleton.mpr rfl
      exact hout _ hmem
    rw [hentry, List.singleton_append,
      resolve_cons tz cfg _ (first :: tail) hnn,
      hstay (_name tz cfg (pickCandidate cfg.duplicate_handling first tail)),
      if_pos hrec_out]

/-- C6, amended: the pipeline is idempotent for every configuration with
one of the four ordered (non-`none`) duplicate policies: re-resolving
the database a second run sees — each bucket holding the previously
resolved entry (under the output root) followed by the unchanged
re-discovered records — produces zero new copy actions.  Under the
`none` policy idempotence fails (see the counterexample). -/
theorem c6_rerun_idempotent (tz : Int) (cfg : Config) (db : Db)
    (hs : OrderedPolicy cfg.duplicate_handling)
    (hne : ∀ p ∈ db, p.2 ≠ [])
    (hout : ∀ p ∈ db, ∀ e ∈ resolveEntry tz cfg p.2,
      strStartsWith e.path cfg.output = true) :
    ∃ ndb, migrateResolve tz cfg (rerunDb tz cfg db) = some (ndb, []) := by
  induction db with
  | nil => exact ⟨[], rfl⟩
  | cons b rest ih =>
    obtain ⟨h, imgs⟩ := b
    obtain ⟨first, tail, himgs⟩ : ∃ f t, imgs = f :: t := by
      cases imgs with
      | nil => exact absurd rfl (hne (h, []) (List.mem_cons_self _ _))
      | cons f t => exact ⟨f, t, rfl⟩
    subst himgs
    obtain ⟨ndb, hndb⟩ := ih
      (fun p hp => hne p (List.mem_cons_of_mem _ hp))
      (fun p hp => hout p (List.mem_cons_of_mem _ hp))
    have hb := rerun_bucket_no_action tz cfg first tail hs
      (hout (h, first :: tail) (List.mem_cons_self _ _))
    refine ⟨(h, resolveEntry tz cfg (first :: tail)) :: ndb, ?_⟩
    simp only [rerunDb, List.map_cons] at hndb ⊢
    simp only [migrateResolve, hb, hndb, List.append_nil]

/-- Witness for `c6_rerun_idempotent`: one already-migrated record plus
its unchanged re-discovered source yields zero new copy actions. -/
theorem c6_rerun_idempotent_witness :
    OrderedPolicy (mkConfig "highest_resolution" "/out").duplicate_handling ∧
    (∃ ndb, migrateResolve 0 (mkConfig "highest_resolution" "/out")
        (rerunDb 0 (mkConfig "highest_resolution" "/out")
          [("h1", [⟨"/in/img.jpg", 800, 600, 1683158400⟩])]) = some (ndb, [])) :=
  ⟨Or.inl rfl,
   c6_rerun_idempotent 0 (mkConfig "highest_resolution" "/out")
     [("h1", [⟨"/in/img.jpg", 800, 600, 1683158400⟩])]
     (Or.inl rfl) (by decide) (by decide)⟩

/-! ### Claim C7 -/

/-- On a local time falling on 2023-05-04, the default template with
stem `img` and height 600 renders `2023/May/04_img_600`. -/
theorem name_concrete_date (tm : Tm) (h1 : tm.year = 2023) (h2 : tm.mon = 5)
    (h3 : tm.mday = 4) :
    pyFormatS (strftimeS "%Y/%B/%d_{filename}_{resy}" tm) "img" 800 600 =
      "2023/May/04_img_600" := by
  obtain ⟨y, mo, md, hh, mi, se⟩ := tm
  change y = 2023 at h1
  change mo = 5 at h2
  change md = 4 at h3
  subst h1; subst h2; subst h3
  have hirr : pyFormatS (strftimeS "%Y/%B/%d_{filename}_{resy}" ⟨2023, 5, 4, hh, mi, se⟩)
        "img" 800 600 =
      pyFormatS (strftimeS "%Y/%B/%d_{filename}_{resy}" (⟨2023, 5, 4, 0, 0, 0⟩ : Tm))
        "img" 800 600 := rfl
  rw [hirr]
  decide

/-- The join `os.path.join(a, b)` always produces a path ending in `b`
(for the cases `_name` generates). -/
theorem osPathJoin_suffix (a b : String) : ∃ pre, osPathJoin a b = pre ++ b := by
  unfold osPathJoin
  by_cases h1 : strStartsWith b "/"
  · rw [if_pos h1]
    exact ⟨"", rfl⟩
  · rw [if_neg h1]
    by_cases h2 : (decide (a = "") || strEndsWith a "/") = true
    · rw [if_pos h2]
      exact ⟨a, rfl⟩
    · rw [if_neg h2]
      exact ⟨a ++ "/", rfl⟩

/-- C7: `_name` joins the formatted template with the original file
extension appended under the output root (extension preserved); on the
concrete inputs of the claim (default template, source filename
`img.jpg`, local date 2023-05-04, resolution 800x600) the destination
path ends in `2023/May/04_img_600.jpg`; and two calls with identical
inputs produce identical outputs. -/
theorem c7_naming_template (tz : Int) (cfg : Config) (img : Img)
    (htpl : cfg.file_naming = "%Y/%B/%d_{filename}_{resy}")
    (hbn : basename img.path = "img.jpg")
    (hw : img.resw = 800) (hh : img.resh = 600)
    (hy : (localtime tz img.ts).year = 2023)
    (hm : (localtime tz img.ts).mon = 5)
    (hd : (localtime tz img.ts).mday = 4) :
    (∀ (cfg2 : Config) (i2 : Img), ∃ stem,
       _name tz cfg2 i2 =
         osPathJoin cfg2.output (stem ++ (splitext (basename i2.path)).2)) ∧
    (∃ pre, _name tz cfg img = pre ++ "2023/May/04_img_600.jpg") ∧
    _name tz cfg img = _name tz cfg img := by
  refine ⟨?_, ?_, rfl⟩
  · intro cfg2 i2
    exact ⟨pyFormatS (strftimeS cfg2.file_naming (localtime tz i2.ts))
      (splitext (basename i2.path)).1 i2.resw i2.resh, rfl⟩
  · have hsplit1 : (splitext (basename img.path)).1 = "img" := by
      rw [hbn]; decide
    have hsplit2 : (splitext (basename img.path)).2 = ".jpg" := by
      rw [hbn]; decide
    have hfmt := name_concrete_date (localtime tz img.ts) hy hm hd
    have hcat : "2023/May/04_img_600" ++ ".jpg" = "2023/May/04_img_600.jpg" := by decide
    have hname : _name tz cfg img = osPathJoin cfg.output "2023/May/04_img_600.jpg" := by
      simp only [_name]
      rw [htpl, hsplit1, hsplit2, hw, hh, hfmt, hcat]
    rw [hname]
    exact osPathJoin_suffix cfg.output "2023/May/04_img_600.jpg"

/-- Witness for `c7_naming_template` at timestamp 1683158400
(2023-05-04 00:00:00 UTC) with UTC offset 0. -/
theorem c7_naming_template_witness :
    (mkConfig "highest_resolution" "/out").file_naming = "%Y/%B/%d_{filename}_{resy}" ∧
    basename "/in/img.jpg" = "img.jpg" ∧
    (localtime 0 1683158400).year = 2023 ∧
    (localtime 0 1683158400).mon = 5 ∧
    (localtime 0 1683158400).mday = 4 ∧
    (∃ pre, _name 0 (mkConfig "highest_resolution" "/out")
        ⟨"/in/img.jpg", 800, 600, 1683158400⟩ = pre ++ "2023/May/04_img_600.jpg") ∧
    (∃ stem, _name 0 (mkConfig "highest_resolution" "/out")
        ⟨"/in/img.jpg", 800, 600, 1683158400⟩ =
      osPathJoin (mkConfig "highest_resolution" "/out").output
        (stem ++ (splitext (basename "/in/img.jpg")).2)) := by
  have h := c7_naming_template 0 (mkConfig "highest_resolution" "/out")
    ⟨"/in/img.jpg", 800, 600, 1683158400⟩ rfl (by decide) rfl rfl
    (by decide) (by decide) (by decide)
  exact ⟨rfl, by decide, by decide, by decide, by decide, h.2.1,
    h.1 (mkConfig "highest_resolution" "/out") ⟨"/in/img.jpg", 800, 600, 1683158400⟩⟩

end Picbasket
